import Mathlib

/-!
Verification development for the buffer layer and shape-plan dispatch of a
HarfBuzz-derived text shaper.  The data model follows
src/harfbuzz/src/hb-buffer.h; the plan structure and its lookup collection
follow the hb_ot_shape_plan_t header.  Operations whose implementation is not
part of the sources at hand (only declared in the headers) are modelled from
the specification, as marked in their doc comments.
-/

set_option autoImplicit false

/-- Glyph information record, from hb_glyph_info_t in hb-buffer.h:
codepoint (a Unicode scalar before shaping, a glyph index after), the private
feature mask, the cluster value, and two private scratch fields. Machine u32
fields are modelled as Nat. -/
structure hb_glyph_info_t where
  codepoint : Nat
  mask : Nat
  cluster : Nat
  var1 : Nat
  var2 : Nat
deriving Repr, DecidableEq

/-- Glyph position record, from hb_glyph_position_t in hb-buffer.h. -/
structure hb_glyph_position_t where
  x_advance : Int
  y_advance : Int
  x_offset : Int
  y_offset : Int
  var : Int
deriving Repr, DecidableEq

/-- From hb-buffer.h: HB_GLYPH_FLAG_UNSAFE_TO_BREAK = 0x00000001. -/
def HB_GLYPH_FLAG_UNSAFE_TO_BREAK : Nat := 0x00000001

/-- From hb-buffer.h: HB_GLYPH_FLAG_DEFINED = 0x00000001, the OR of all
defined glyph flags. -/
def HB_GLYPH_FLAG_DEFINED : Nat := 0x00000001

/-- From the macro in hb-buffer.h:
hb_glyph_info_get_glyph_flags(info) = (info->mask & HB_GLYPH_FLAG_DEFINED). -/
def hb_glyph_info_get_glyph_flags (info : hb_glyph_info_t) : Nat :=
  info.mask &&& HB_GLYPH_FLAG_DEFINED

/-- Whether a glyph carries the UNSAFE_TO_BREAK flag (low bit of mask). -/
def hasUnsafeToBreak (g : hb_glyph_info_t) : Bool :=
  g.mask.testBit 0

/-- Content type of a buffer, from hb_buffer_content_type_t in hb-buffer.h. -/
inductive hb_buffer_content_type_t where
  | INVALID
  | UNICODE
  | GLYPHS
deriving Repr, DecidableEq

/-- Text direction, modelled from the spec data model:
direction is one of LTR, RTL, TTB, BTT, INVALID. -/
inductive hb_direction_t where
  | INVALID
  | LTR
  | RTL
  | TTB
  | BTT
deriving Repr, DecidableEq

/-- Segment properties, from hb_segment_properties_t in hb-buffer.h:
direction, script and language.  The script tag is modelled as Nat and the
language as an optional byte string (NULL modelled as none). -/
structure hb_segment_properties_t where
  direction : hb_direction_t
  script : Nat
  language : Option (List Nat)
deriving Repr, DecidableEq

/-- ASCII lower-casing of one byte, for case-insensitive language compare. -/
def toLowerByte (c : Nat) : Nat :=
  if 0x41 ≤ c ∧ c ≤ 0x5A then c + 0x20 else c

/-- Modelled from the spec (the body of hb_segment_properties_equal is not in
the sources at hand): case-insensitive byte-string equality walker used for
the language field. -/
def langCaseEq : List Nat → List Nat → Bool
  | [], [] => true
  | a :: as, b :: bs => decide (toLowerByte a = toLowerByte b) && langCaseEq as bs
  | _, _ => false

/-- Modelled from the spec: language equality lifted to the nullable language
field; NULL equals only NULL. -/
def langEq : Option (List Nat) → Option (List Nat) → Bool
  | none, none => true
  | some a, some b => langCaseEq a b
  | _, _ => false

/-- Modelled from the spec (declared in hb-buffer.h, body not in the sources
at hand): two segments are equal iff direction, script and language all
match, with language compared case-insensitively. -/
def hb_segment_properties_equal (a b : hb_segment_properties_t) : Bool :=
  decide (a.direction = b.direction) && decide (a.script = b.script) &&
    langEq a.language b.language

/-- OpenType tag for the GSUB table: HB_TAG of G, S, U, B big-endian. -/
def HB_OT_TAG_GSUB : Nat := 0x47535542

/-- OpenType tag for the GPOS table: HB_TAG of G, P, O, S big-endian. -/
def HB_OT_TAG_GPOS : Nat := 0x47504F53

/-- The OT map of a compiled plan.  Its lookup-collection routine is not in
the sources at hand, so it is kept abstract as a field: given a table index
(0 for GSUB, 1 for GPOS) and the current lookup set it returns the grown
lookup set.  Lookup sets are modelled as lists of lookup indices. -/
structure hb_ot_map_t where
  collect_lookups_fn : Nat → List Nat → List Nat

/-- Compiled shape plan, from hb_ot_shape_plan_t in the shaping header:
segment properties, the selected shaper (abstracted as an id), the OT map,
the AAT map (abstracted as an id), feature masks and the behavior flags. -/
structure hb_ot_shape_plan_t where
  props : hb_segment_properties_t
  shaper : Nat
  map : hb_ot_map_t
  aat_map : Nat
  frac_mask : Nat
  numr_mask : Nat
  dnom_mask : Nat
  rtlm_mask : Nat
  kern_mask : Nat
  trak_mask : Nat
  requested_kerning : Bool
  requested_tracking : Bool
  has_frac : Bool
  has_vert : Bool
  has_gpos_mark : Bool
  zero_marks : Bool
  fallback_glyph_classes : Bool
  fallback_mark_positioning : Bool
  adjust_mark_positioning_when_zeroing : Bool
  apply_gpos : Bool
  apply_kern : Bool
  apply_kerx : Bool
  apply_morx : Bool
  apply_trak : Bool

/-- From hb_ot_shape_plan_t::collect_lookups in the shaping header: switch on
the table tag; GSUB selects table index 0, GPOS selects table index 1, any
other tag returns without touching the lookup set; on a match it delegates
to the map. -/
def hb_ot_shape_plan_t.collect_lookups (plan : hb_ot_shape_plan_t)
    (table_tag : Nat) (lookups : List Nat) : List Nat :=
  if table_tag = HB_OT_TAG_GSUB then
    plan.map.collect_lookups_fn 0 lookups
  else if table_tag = HB_OT_TAG_GPOS then
    plan.map.collect_lookups_fn 1 lookups
  else
    lookups

/-- Whether a byte is a UTF-8 continuation byte (0x80..0xBF). -/
def isUtf8Cont (b : Nat) : Bool :=
  decide (0x80 ≤ b) && decide (b ≤ 0xBF)

/-- Admissible second byte of a three-byte UTF-8 sequence, given the lead:
0xE0 restricts to 0xA0..0xBF (overlong exclusion) and 0xED restricts to
0x80..0x9F (surrogate exclusion). -/
def utf8Valid3Lead (b0 b1 : Nat) : Bool :=
  if b0 = 0xE0 then decide (0xA0 ≤ b1) && decide (b1 ≤ 0xBF)
  else if b0 = 0xED then decide (0x80 ≤ b1) && decide (b1 ≤ 0x9F)
  else isUtf8Cont b1

/-- Admissible second byte of a four-byte UTF-8 sequence, given the lead:
0xF0 restricts to 0x90..0xBF (overlong exclusion) and 0xF4 restricts to
0x80..0x8F (bound of U+10FFFF). -/
def utf8Valid4Lead (b0 b1 : Nat) : Bool :=
  if b0 = 0xF0 then decide (0x90 ≤ b1) && decide (b1 ≤ 0xBF)
  else if b0 = 0xF4 then decide (0x80 ≤ b1) && decide (b1 ≤ 0x8F)
  else isUtf8Cont b1

/-- Scalar value of a two-byte UTF-8 sequence. -/
def utf8Scalar2 (b0 b1 : Nat) : Nat :=
  (b0 - 0xC0) * 0x40 + (b1 - 0x80)

/-- Scalar value of a three-byte UTF-8 sequence. -/
def utf8Scalar3 (b0 b1 b2 : Nat) : Nat :=
  (b0 - 0xE0) * 0x1000 + (b1 - 0x80) * 0x40 + (b2 - 0x80)

/-- Scalar value of a four-byte UTF-8 sequence. -/
def utf8Scalar4 (b0 b1 b2 b3 : Nat) : Nat :=
  (b0 - 0xF0) * 0x40000 + (b1 - 0x80) * 0x1000 + (b2 - 0x80) * 0x40 + (b3 - 0x80)

/-- Whether a code point is a Unicode scalar value (not a surrogate and at
most U+10FFFF). -/
def utf8IsValidScalar (c : Nat) : Bool :=
  decide (c < 0xD800) || (decide (0xDFFF < c) && decide (c ≤ 0x10FFFF))

/-- Modelled from the spec (the body of the UTF-8 ingest behind
hb_buffer_add_utf8 is not in the sources at hand): decode one scalar from
lead byte b0 followed by rest, returning the scalar together with the number
of additional bytes consumed from rest; an ill-formed sequence yields the
replacement code point rcp and consumes only the lead byte. -/
def utf8Next (rcp b0 : Nat) (rest : List Nat) : Nat × Nat :=
  if b0 < 0x80 then (b0, 0)
  else if decide (0xC2 ≤ b0) && decide (b0 ≤ 0xDF) then
    match rest with
    | b1 :: _ =>
      if isUtf8Cont b1 then (utf8Scalar2 b0 b1, 1) else (rcp, 0)
    | [] => (rcp, 0)
  else if decide (0xE0 ≤ b0) && decide (b0 ≤ 0xEF) then
    match rest with
    | b1 :: b2 :: _ =>
      if utf8Valid3Lead b0 b1 && isUtf8Cont b2 then (utf8Scalar3 b0 b1 b2, 2)
      else (rcp, 0)
    | _ => (rcp, 0)
  else if decide (0xF0 ≤ b0) && decide (b0 ≤ 0xF4) then
    match rest with
    | b1 :: b2 :: b3 :: _ =>
      if utf8Valid4Lead b0 b1 && isUtf8Cont b2 && isUtf8Cont b3 then
        (utf8Scalar4 b0 b1 b2 b3, 3)
      else (rcp, 0)
    | _ => (rcp, 0)
  else (rcp, 0)

/-- Fuel-indexed UTF-8 decoding loop: one scalar is emitted per step and at
least one byte is consumed, so fuel equal to the byte count decodes the whole
input; recursion is structural on the fuel. -/
def utf8DecodeFuel (rcp : Nat) : Nat → List Nat → List Nat
  | 0, _ => []
  | _, [] => []
  | fuel + 1, b0 :: rest =>
    let r := utf8Next rcp b0 rest
    r.1 :: utf8DecodeFuel rcp fuel (rest.drop r.2)

/-- Modelled from the spec: total UTF-8 decoding with replacement — every
ill-formed subsequence becomes the replacement code point rcp; decoding never
fails and consumes the whole input. -/
def utf8Decode (rcp : Nat) (bytes : List Nat) : List Nat :=
  utf8DecodeFuel rcp bytes.length bytes

/-- Minimum of a list of naturals, head-seeded fold (0 on the empty list). -/
def natMinList : List Nat → Nat
  | [] => 0
  | c :: cs => cs.foldl Nat.min c

/-- Minimum cluster value over a list of glyph infos. -/
def minClusterList (l : List hb_glyph_info_t) : Nat :=
  natMinList (l.map (fun g => g.cluster))

/-- Cluster values of the glyphs in the index range [s, e) of a list. -/
def clustersInRange (l : List hb_glyph_info_t) (s e : Nat) : List Nat :=
  ((l.drop s).take (e - s)).map (fun g => g.cluster)

/-- OR the UNSAFE_TO_BREAK flag into the mask of one glyph info. -/
def setUnsafeToBreak (g : hb_glyph_info_t) : hb_glyph_info_t :=
  { g with mask := g.mask ||| HB_GLYPH_FLAG_UNSAFE_TO_BREAK }

/-- Modelled from the spec (the body of hb_buffer_unsafe_to_break is not in
the sources at hand): mark the UNSAFE_TO_BREAK flag on the whole clusters
covering the range — every glyph whose cluster value occurs in [s, e) gets
the flag. -/
def unsafeToBreakList (l : List hb_glyph_info_t) (s e : Nat) :
    List hb_glyph_info_t :=
  let cs := clustersInRange l s e
  l.map (fun g => if g.cluster ∈ cs then setUnsafeToBreak g else g)

/-- Modelled from the spec: one step of a cluster merge — a glyph belonging
to one of the merged clusters cs takes the minimum cluster value m and, when
the merge crosses a cluster boundary, the UNSAFE_TO_BREAK flag. -/
def mergeGlyph (cs : List Nat) (m : Nat) (crossing : Bool)
    (g : hb_glyph_info_t) : hb_glyph_info_t :=
  if g.cluster ∈ cs then
    { g with cluster := m,
             mask := if crossing then g.mask ||| HB_GLYPH_FLAG_UNSAFE_TO_BREAK
                     else g.mask }
  else g

/-- Modelled from the spec (the body of hb_buffer_merge_clusters is not in
the sources at hand): assign the minimum cluster value across the clusters
covering the range, and when the merge crosses a cluster boundary OR the
UNSAFE_TO_BREAK flag into the entire merged cluster. -/
def mergeClustersList (l : List hb_glyph_info_t) (s e : Nat) :
    List hb_glyph_info_t :=
  let cs := clustersInRange l s e
  if cs.isEmpty then l
  else
    l.map (mergeGlyph cs (natMinList cs)
      (cs.any (fun x => decide (x ≠ cs.headD 0))))

/-- The all-zero glyph position. -/
def defaultPosition : hb_glyph_position_t :=
  ⟨0, 0, 0, 0, 0⟩

/-- A fresh glyph info holding a code point and a cluster value. -/
def mkGlyphInfo (cp cluster : Nat) : hb_glyph_info_t :=
  ⟨cp, 0, cluster, 0, 0⟩

/-- Modelled from the spec (hb_buffer_t is opaque in hb-buffer.h): the buffer
is a double-sided working array — the in side info with read cursor idx, the
out side out_info — plus the parallel position array, the content type, the
sticky allocation-success flag, the growth cap max_len and the replacement
code point for ill-formed input. -/
structure hb_buffer_t where
  content_type : hb_buffer_content_type_t
  successful : Bool
  max_len : Nat
  replacement : Nat
  props : hb_segment_properties_t
  info : List hb_glyph_info_t
  pos : List hb_glyph_position_t
  out_info : List hb_glyph_info_t
  idx : Nat
deriving Repr, DecidableEq

/-- From hb-buffer.h: hb_buffer_allocation_successful reports the
allocation-success flag; the caller observes failure through it. -/
def hb_buffer_allocation_successful (b : hb_buffer_t) : Bool :=
  b.successful

/-- Modelled from the spec: ensure capacity — exceeding the cap sets the
sticky allocation-failed flag; a failed buffer is left untouched. -/
def hb_buffer_ensure (b : hb_buffer_t) (size : Nat) : hb_buffer_t :=
  if ¬ b.successful then b
  else if size ≤ b.max_len then b
  else { b with successful := false }

/-- Modelled from the spec: hb_buffer_add appends one code point with the
given cluster value (and a parallel zero position); it is a no-op on a failed
buffer and fails when growth would exceed the cap. -/
def hb_buffer_add (b : hb_buffer_t) (codepoint cluster : Nat) : hb_buffer_t :=
  if ¬ b.successful then b
  else if b.info.length + 1 ≤ b.max_len then
    { b with info := b.info ++ [mkGlyphInfo codepoint cluster],
             pos := b.pos ++ [defaultPosition] }
  else { b with successful := false }

/-- Modelled from the spec: hb_buffer_add_utf8 decodes the byte string with
replacement (never failing on ill-formed input) and appends one glyph per
decoded scalar, cluster set to the scalar index; allocation failure beyond
the cap sets the sticky flag. -/
def hb_buffer_add_utf8 (b : hb_buffer_t) (text : List Nat) : hb_buffer_t :=
  if ¬ b.successful then b
  else
    let decoded := utf8Decode b.replacement text
    if b.info.length + decoded.length ≤ b.max_len then
      { b with
          info := b.info ++
            decoded.enum.map (fun p => mkGlyphInfo p.2 (b.info.length + p.1)),
          pos := b.pos ++ decoded.map (fun _ => defaultPosition) }
    else { b with successful := false }

/-- Modelled from the spec: next_glyph copies info at idx to the out side and
advances both cursors. -/
def hb_buffer_next_glyph (b : hb_buffer_t) : hb_buffer_t :=
  if ¬ b.successful then b
  else if h : b.idx < b.info.length then
    if b.out_info.length + 1 ≤ b.max_len then
      { b with out_info := b.out_info ++ [b.info.get ⟨b.idx, h⟩],
               idx := b.idx + 1 }
    else { b with successful := false }
  else b

/-- Modelled from the spec: replace_glyphs consumes num_in glyphs at idx and
emits one output glyph per element of glyph_data on the out side; the cluster
of every output equals the minimum cluster of the consumed inputs. -/
def hb_buffer_replace_glyphs (b : hb_buffer_t) (num_in : Nat)
    (glyph_data : List Nat) : hb_buffer_t :=
  if ¬ b.successful then b
  else if 1 ≤ num_in ∧ b.idx + num_in ≤ b.info.length then
    if b.out_info.length + glyph_data.length ≤ b.max_len then
      let consumed := (b.info.drop b.idx).take num_in
      let m := minClusterList consumed
      let orig := (b.info.drop b.idx).headD (mkGlyphInfo 0 0)
      { b with
          out_info := b.out_info ++
            glyph_data.map (fun cp => { orig with codepoint := cp, cluster := m }),
          idx := b.idx + num_in }
    else { b with successful := false }
  else b

/-- Modelled from the spec: replace_glyph consumes one input and emits one
output glyph. -/
def hb_buffer_replace_glyph (b : hb_buffer_t) (glyph_index : Nat) :
    hb_buffer_t :=
  hb_buffer_replace_glyphs b 1 [glyph_index]

/-- Modelled from the spec: output_glyph emits one glyph on the out side
without consuming input. -/
def hb_buffer_output_glyph (b : hb_buffer_t) (glyph_index : Nat) :
    hb_buffer_t :=
  if ¬ b.successful then b
  else if b.out_info.length + 1 ≤ b.max_len then
    let orig := (b.info.drop b.idx).headD (mkGlyphInfo 0 0)
    { b with out_info := b.out_info ++ [{ orig with codepoint := glyph_index }] }
  else { b with successful := false }

/-- Modelled from the spec: swap_buffers exchanges the sides at the end of a
pass — the out side becomes the in side, the position array is resized in
parallel, and the cursors reset. -/
def hb_buffer_swap_buffers (b : hb_buffer_t) : hb_buffer_t :=
  if ¬ b.successful then b
  else { b with info := b.out_info,
                pos := b.out_info.map (fun _ => defaultPosition),
                out_info := [],
                idx := 0 }

/-- Modelled from the spec: hb_buffer_reverse reverses the glyph infos and
their positions. -/
def hb_buffer_reverse (b : hb_buffer_t) : hb_buffer_t :=
  if ¬ b.successful then b
  else { b with info := b.info.reverse, pos := b.pos.reverse }

/-- Modelled from the spec: hb_buffer_merge_clusters merges the clusters
covering [s, e) on the in side. -/
def hb_buffer_merge_clusters (b : hb_buffer_t) (s e : Nat) : hb_buffer_t :=
  if ¬ b.successful then b
  else { b with info := mergeClustersList b.info s e }

/-- Modelled from the spec: hb_buffer_unsafe_to_break marks the flag on the
whole clusters covering [s, e) on the in side. -/
def hb_buffer_unsafe_to_break (b : hb_buffer_t) (s e : Nat) : hb_buffer_t :=
  if ¬ b.successful then b
  else { b with info := unsafeToBreakList b.info s e }

/-- One step of the public and internal buffer mutators consumed by the
shaping passes — per the spec design notes, next_glyph, replace_glyph,
replace_glyphs and output_glyph are the only mutators during a pass, plus the
cluster primitives, the fill operations and the pass-end swap. -/
inductive hb_buffer_op where
  | add (codepoint cluster : Nat)
  | add_utf8 (text : List Nat)
  | pre_allocate (size : Nat)
  | next_glyph
  | replace_glyph (glyph_index : Nat)
  | replace_glyphs (num_in : Nat) (glyph_data : List Nat)
  | output_glyph (glyph_index : Nat)
  | merge_clusters (s e : Nat)
  | unsafe_to_break (s e : Nat)
  | swap_buffers
  | reverse

/-- Interpreter for one buffer operation. -/
def applyOp (op : hb_buffer_op) (b : hb_buffer_t) : hb_buffer_t :=
  match op with
  | .add cp cluster => hb_buffer_add b cp cluster
  | .add_utf8 text => hb_buffer_add_utf8 b text
  | .pre_allocate size => hb_buffer_ensure b size
  | .next_glyph => hb_buffer_next_glyph b
  | .replace_glyph g => hb_buffer_replace_glyph b g
  | .replace_glyphs num_in data => hb_buffer_replace_glyphs b num_in data
  | .output_glyph g => hb_buffer_output_glyph b g
  | .merge_clusters s e => hb_buffer_merge_clusters b s e
  | .unsafe_to_break s e => hb_buffer_unsafe_to_break b s e
  | .swap_buffers => hb_buffer_swap_buffers b
  | .reverse => hb_buffer_reverse b

/-- Interpreter for a sequence of buffer operations. -/
def applyOps (ops : List hb_buffer_op) (b : hb_buffer_t) : hb_buffer_t :=
  ops.foldl (fun acc op => applyOp op acc) b

/-- Modelled from the spec: the position pass initializes one position per
glyph info from the font advance of its glyph. -/
def positionGlyphs (h_advance : Nat → Int) (l : List hb_glyph_info_t) :
    List hb_glyph_position_t :=
  l.map (fun g => { defaultPosition with x_advance := h_advance g.codepoint })

/-- Modelled from the spec: the cleanup step of the shape driver propagates
UNSAFE_TO_BREAK through clusters — every glyph whose cluster value is carried
by some flagged glyph gets the flag. -/
def propagateUnsafeToBreak (l : List hb_glyph_info_t) :
    List hb_glyph_info_t :=
  let flagged := (l.filter hasUnsafeToBreak).map (fun g => g.cluster)
  l.map (fun g => if g.cluster ∈ flagged then setUnsafeToBreak g else g)

/-- Modelled from the spec: the shape entry point — on a Unicode buffer with
no prior allocation failure it runs the shaping passes (a sequence of buffer
operations), then on success the cleanup propagates UNSAFE_TO_BREAK through
clusters, positions are initialized and the content type transitions to
Glyphs; misuse (wrong content type) or a failed buffer give a failing no-op,
and an allocation failure during the run reports failure. -/
def hb_shape (h_advance : Nat → Int) (passes : List hb_buffer_op)
    (b : hb_buffer_t) : Bool × hb_buffer_t :=
  if b.content_type = hb_buffer_content_type_t.UNICODE ∧ b.successful then
    if (applyOps passes b).successful then
      (true, { applyOps passes b with
                 content_type := hb_buffer_content_type_t.GLYPHS,
                 info := propagateUnsafeToBreak (applyOps passes b).info,
                 pos := positionGlyphs h_advance
                   (propagateUnsafeToBreak (applyOps passes b).info) })
    else (false, applyOps passes b)
  else (false, b)

/-- A sample OT map whose lookup collection conses the table index. -/
def sampleMap : hb_ot_map_t :=
  ⟨fun i s => i :: s⟩

/-- A sample compiled plan over sampleMap, for concrete evaluation. -/
def samplePlan : hb_ot_shape_plan_t :=
  ⟨⟨hb_direction_t.LTR, 0, none⟩, 0, sampleMap, 0, 0, 0, 0, 0, 0, 0,
   false, false, false, false, false, false, false, false, false,
   false, false, false, false, false⟩

/-- C10: collect_lookups on a compiled shape plan leaves the lookup set
untouched for any table tag other than GSUB and GPOS, and for GSUB and GPOS
it delegates to the map with table indices 0 and 1 respectively. -/
theorem collect_lookups_dispatch (plan : hb_ot_shape_plan_t) (tag : Nat)
    (lookups : List Nat) :
    (tag ≠ HB_OT_TAG_GSUB → tag ≠ HB_OT_TAG_GPOS →
        plan.collect_lookups tag lookups = lookups) ∧
    plan.collect_lookups HB_OT_TAG_GSUB lookups =
      plan.map.collect_lookups_fn 0 lookups ∧
    plan.collect_lookups HB_OT_TAG_GPOS lookups =
      plan.map.collect_lookups_fn 1 lookups := by
  refine ⟨fun h1 h2 => ?_, ?_, ?_⟩
  · unfold hb_ot_shape_plan_t.collect_lookups
    rw [if_neg h1, if_neg h2]
  · simp [hb_ot_shape_plan_t.collect_lookups]
  · simp [hb_ot_shape_plan_t.collect_lookups, HB_OT_TAG_GSUB, HB_OT_TAG_GPOS]

/-- Witness for collect_lookups_dispatch: a tag that is neither GSUB nor GPOS
(the kern tag) leaves a concrete lookup set unchanged. -/
theorem collect_lookups_dispatch_witness :
    samplePlan.collect_lookups 0x6B65726E [7] = [7] :=
  (collect_lookups_dispatch samplePlan 0x6B65726E [7]).1 (by decide) (by decide)

/-- C8: the UNSAFE_TO_BREAK flag occupies the low bit, and
hb_glyph_info_get_glyph_flags returns exactly the mask AND 0x1 — that is the
mask mod 2: bit 0 passes through and every higher bit of the result reads
false, so no higher feature-mask bit is exposed. -/
theorem glyph_flags_mask_low_bit (info : hb_glyph_info_t) :
    HB_GLYPH_FLAG_UNSAFE_TO_BREAK = 2 ^ 0 ∧
    hb_glyph_info_get_glyph_flags info = info.mask % 2 ∧
    (hb_glyph_info_get_glyph_flags info).testBit 0 = info.mask.testBit 0 ∧
    ∀ k, 1 ≤ k → (hb_glyph_info_get_glyph_flags info).testBit k = false := by
  have hmod : hb_glyph_info_get_glyph_flags info = info.mask % 2 := by
    simp [hb_glyph_info_get_glyph_flags, HB_GLYPH_FLAG_DEFINED,
      Nat.and_one_is_mod]
  refine ⟨rfl, hmod, ?_, ?_⟩
  · have h22 : info.mask % 2 % 2 = info.mask % 2 := by omega
    rw [hmod, Nat.testBit_zero, Nat.testBit_zero, h22]
  · intro k hk
    rw [hmod]
    have h2k : (2 : Nat) ≤ 2 ^ k :=
      calc (2 : Nat) = 2 ^ 1 := rfl
        _ ≤ 2 ^ k := Nat.pow_le_pow_right (by norm_num) hk
    exact Nat.testBit_eq_false_of_lt
      (lt_of_lt_of_le (Nat.mod_lt _ (by norm_num)) h2k)

/-- Witness for glyph_flags_mask_low_bit: a concrete mask with many high bits
set yields flags equal to mask mod 2 and a false bit at position 5. -/
theorem glyph_flags_mask_low_bit_witness :
    (1 ≤ 5 ∧
      (hb_glyph_info_get_glyph_flags ⟨0, 0xDEADBEEF, 0, 0, 0⟩).testBit 5 = false) ∧
    hb_glyph_info_get_glyph_flags ⟨0, 0xDEADBEEF, 0, 0, 0⟩ = 0xDEADBEEF % 2 :=
  ⟨⟨by decide, (glyph_flags_mask_low_bit ⟨0, 0xDEADBEEF, 0, 0, 0⟩).2.2.2 5 (by decide)⟩,
   (glyph_flags_mask_low_bit ⟨0, 0xDEADBEEF, 0, 0, 0⟩).2.1⟩

theorem langCaseEq_iff (a b : List Nat) :
    langCaseEq a b = true ↔ a.map toLowerByte = b.map toLowerByte := by
  induction a generalizing b with
  | nil => cases b <;> simp [langCaseEq]
  | cons x xs ih =>
    cases b with
    | nil => simp [langCaseEq]
    | cons y ys => simp [langCaseEq, ih]

/-- C7: two segment-properties values compare equal under
hb_segment_properties_equal iff their direction, script and language all
match, with language compared case-insensitively (equal after ASCII
lower-casing, NULL matching only NULL). -/
theorem segment_properties_equal_iff (a b : hb_segment_properties_t) :
    hb_segment_properties_equal a b = true ↔
      (a.direction = b.direction ∧ a.script = b.script ∧
        a.language.map (List.map toLowerByte) =
          b.language.map (List.map toLowerByte)) := by
  rcases a with ⟨da, sa, la⟩
  rcases b with ⟨db, sb, lb⟩
  rcases la with _ | la <;> rcases lb with _ | lb <;>
    simp [hb_segment_properties_equal, langEq, langCaseEq_iff,
      Bool.and_eq_true, and_assoc]

/-- Default segment properties used by the concrete sample buffers. -/
def sampleProps : hb_segment_properties_t :=
  ⟨hb_direction_t.LTR, 0, none⟩

/-- A buffer whose allocation-failed flag is already set. -/
def failedBuffer : hb_buffer_t :=
  ⟨hb_buffer_content_type_t.UNICODE, false, 10, 0xFFFD, sampleProps,
   [], [], [], 0⟩

/-- A fresh empty Unicode buffer with a small capacity cap. -/
def freshBuffer : hb_buffer_t :=
  ⟨hb_buffer_content_type_t.UNICODE, true, 8, 0xFFFD, sampleProps,
   [], [], [], 0⟩

theorem applyOp_of_failed (op : hb_buffer_op) (b : hb_buffer_t)
    (h : b.successful = false) : applyOp op b = b := by
  cases op <;>
    simp [applyOp, hb_buffer_add, hb_buffer_add_utf8, hb_buffer_ensure,
      hb_buffer_next_glyph, hb_buffer_replace_glyph, hb_buffer_replace_glyphs,
      hb_buffer_output_glyph, hb_buffer_merge_clusters,
      hb_buffer_unsafe_to_break, hb_buffer_swap_buffers, hb_buffer_reverse, h]

/-- C2: the allocation-failed flag on a buffer is sticky — once
allocation_successful reports false, every subsequent sequence of buffer
operations is a no-op leaving the buffer state unchanged, and
allocation_successful keeps returning false; the operations expose no other
failure channel. -/
theorem allocation_failure_sticky (b : hb_buffer_t) (ops : List hb_buffer_op)
    (h : hb_buffer_allocation_successful b = false) :
    applyOps ops b = b ∧
    hb_buffer_allocation_successful (applyOps ops b) = false := by
  have hb2 : b.successful = false := h
  have hmain : applyOps ops b = b := by
    induction ops with
    | nil => rfl
    | cons op ops ih =>
      calc applyOps (op :: ops) b = applyOps ops (applyOp op b) := rfl
        _ = applyOps ops b := by rw [applyOp_of_failed op b hb2]
        _ = b := ih
  exact ⟨hmain, by rw [hmain]; exact h⟩

/-- Witness for allocation_failure_sticky: on a concrete failed buffer, an
add followed by a reverse leaves the buffer untouched. -/
theorem allocation_failure_sticky_witness :
    hb_buffer_allocation_successful failedBuffer = false ∧
    applyOps [hb_buffer_op.add 65 0, hb_buffer_op.reverse] failedBuffer =
      failedBuffer :=
  ⟨rfl, (allocation_failure_sticky failedBuffer
    [hb_buffer_op.add 65 0, hb_buffer_op.reverse] rfl).1⟩

/-- C1: the shape entry point returns success iff no allocation failure is
reported on the resulting buffer and the content type has transitioned from
Unicode to Glyphs. -/
theorem shape_success_iff (h_advance : Nat → Int) (passes : List hb_buffer_op)
    (b : hb_buffer_t) :
    (hb_shape h_advance passes b).1 = true ↔
      (hb_buffer_allocation_successful (hb_shape h_advance passes b).2 = true ∧
       b.content_type = hb_buffer_content_type_t.UNICODE ∧
       (hb_shape h_advance passes b).2.content_type =
         hb_buffer_content_type_t.GLYPHS) := by
  unfold hb_shape hb_buffer_allocation_successful
  split_ifs with h1 h2
  · simp [h1.1, h2]
  · simp [h2]
  · constructor
    · intro hfalse
      exact absurd hfalse (by simp)
    · rintro ⟨hs, hu, hg⟩
      rw [hu] at hg
      cases hg

theorem unsafeToBreakList_length (l : List hb_glyph_info_t) (s e : Nat) :
    (unsafeToBreakList l s e).length = l.length := by
  simp [unsafeToBreakList]

theorem mergeClustersList_length (l : List hb_glyph_info_t) (s e : Nat) :
    (mergeClustersList l s e).length = l.length := by
  simp only [mergeClustersList]
  split_ifs <;> simp

theorem applyOp_length_coherent (op : hb_buffer_op) (b : hb_buffer_t)
    (h : b.info.length = b.pos.length) :
    (applyOp op b).info.length = (applyOp op b).pos.length := by
  cases op <;>
    simp only [applyOp, hb_buffer_add, hb_buffer_add_utf8, hb_buffer_ensure,
      hb_buffer_next_glyph, hb_buffer_replace_glyph, hb_buffer_replace_glyphs,
      hb_buffer_output_glyph, hb_buffer_merge_clusters,
      hb_buffer_unsafe_to_break, hb_buffer_swap_buffers, hb_buffer_reverse] <;>
    split_ifs <;>
    simp [h, unsafeToBreakList_length, mergeClustersList_length,
      List.enum_length]

theorem applyOps_length_coherent (ops : List hb_buffer_op) (b : hb_buffer_t)
    (h : b.info.length = b.pos.length) :
    (applyOps ops b).info.length = (applyOps ops b).pos.length := by
  induction ops generalizing b with
  | nil => exact h
  | cons op ops ih =>
    calc (applyOps (op :: ops) b).info.length
        = (applyOps ops (applyOp op b)).info.length := rfl
      _ = (applyOps ops (applyOp op b)).pos.length :=
          ih (applyOp op b) (applyOp_length_coherent op b h)
      _ = (applyOps (op :: ops) b).pos.length := rfl

/-- C3: length coherence — starting from a buffer whose glyph-info and
glyph-position arrays have equal length, after a shape call the two arrays
again have equal length, and whenever the call succeeds the content type of
the result is Glyphs; so every buffer whose content type has become Glyphs
has equally long info and position arrays. -/
theorem shape_length_coherence (h_advance : Nat → Int)
    (passes : List hb_buffer_op) (b : hb_buffer_t)
    (h : b.info.length = b.pos.length) :
    (hb_shape h_advance passes b).2.info.length =
      (hb_shape h_advance passes b).2.pos.length ∧
    ((hb_shape h_advance passes b).1 = true →
      (hb_shape h_advance passes b).2.content_type =
        hb_buffer_content_type_t.GLYPHS) := by
  unfold hb_shape
  split_ifs with h1 h2
  · exact ⟨by simp [positionGlyphs], fun _ => rfl⟩
  · exact ⟨applyOps_length_coherent passes b h, by intro hh; simp at hh⟩
  · exact ⟨h, by intro hh; simp at hh⟩

/-- Witness for shape_length_coherence: a concrete successful shape run on a
fresh buffer yields equally long info and position arrays. -/
theorem shape_length_coherence_witness :
    freshBuffer.info.length = freshBuffer.pos.length ∧
    (hb_shape (fun _ => 10) [hb_buffer_op.add 65 0] freshBuffer).2.info.length =
      (hb_shape (fun _ => 10) [hb_buffer_op.add 65 0] freshBuffer).2.pos.length :=
  ⟨rfl, (shape_length_coherence (fun _ => 10) [hb_buffer_op.add 65 0]
    freshBuffer rfl).1⟩

theorem foldl_min_le (cs : List Nat) (a : Nat) :
    cs.foldl Nat.min a ≤ a ∧ ∀ x ∈ cs, cs.foldl Nat.min a ≤ x := by
  induction cs generalizing a with
  | nil => simp
  | cons c cs ih =>
    simp only [List.foldl_cons]
    have h := ih (Nat.min a c)
    refine ⟨le_trans h.1 (Nat.min_le_left a c), ?_⟩
    intro x hx
    rcases List.mem_cons.mp hx with rfl | hx
    · exact le_trans h.1 (Nat.min_le_right a x)
    · exact h.2 x hx

theorem foldl_min_mem (cs : List Nat) (a : Nat) :
    cs.foldl Nat.min a = a ∨ cs.foldl Nat.min a ∈ cs := by
  induction cs generalizing a with
  | nil => left; rfl
  | cons c cs ih =>
    simp only [List.foldl_cons]
    rcases ih (Nat.min a c) with h | h
    · rw [h]
      by_cases hac : a ≤ c
      · left
        exact Nat.min_eq_left hac
      · right
        have hmr : Nat.min a c = c := Nat.min_eq_right (le_of_not_le hac)
        rw [hmr]
        exact List.mem_cons_self c cs
    · right
      exact List.mem_cons_of_mem c h

theorem natMinList_spec (c : Nat) (cs : List Nat) :
    natMinList (c :: cs) ∈ c :: cs ∧ ∀ x ∈ c :: cs, natMinList (c :: cs) ≤ x := by
  simp only [natMinList]
  constructor
  · rcases foldl_min_mem cs c with h | h
    · rw [h]
      exact List.mem_cons_self c cs
    · exact List.mem_cons_of_mem c h
  · intro x hx
    rcases List.mem_cons.mp hx with rfl | hx
    · exact (foldl_min_le cs x).1
    · exact (foldl_min_le cs c).2 x hx

/-- C5: every output glyph of an n-to-m substitution via replace_glyphs is
assigned a cluster value equal to the minimum of the cluster values of the
consumed inputs — it is a lower bound of the consumed clusters and is
attained by one of them. -/
theorem replace_glyphs_min_cluster (b : hb_buffer_t) (num_in : Nat)
    (glyph_data : List Nat)
    (hsucc : b.successful = true) (hnin : 1 ≤ num_in)
    (hfit : b.idx + num_in ≤ b.info.length)
    (hcap : b.out_info.length + glyph_data.length ≤ b.max_len) :
    ∀ g ∈ (hb_buffer_replace_glyphs b num_in glyph_data).out_info.drop
        b.out_info.length,
      (∀ c ∈ (b.info.drop b.idx).take num_in, g.cluster ≤ c.cluster) ∧
      (∃ c ∈ (b.info.drop b.idx).take num_in, g.cluster = c.cluster) := by
  intro g hg
  unfold hb_buffer_replace_glyphs at hg
  rw [if_neg (by simp [hsucc]), if_pos ⟨hnin, hfit⟩, if_pos hcap] at hg
  dsimp only at hg
  rw [List.drop_left, List.mem_map] at hg
  obtain ⟨cp, _, rfl⟩ := hg
  dsimp only
  have hlen : ((b.info.drop b.idx).take num_in).length = num_in := by
    simp only [List.length_take, List.length_drop]
    omega
  cases hcons : (b.info.drop b.idx).take num_in with
  | nil =>
    rw [hcons] at hlen
    simp at hlen
    omega
  | cons c0 crest =>
    rw [minClusterList]
    simp only [List.map_cons]
    have hspec := natMinList_spec c0.cluster (crest.map (fun g => g.cluster))
    constructor
    · intro c hc
      have hmem : c.cluster ∈ c0.cluster :: crest.map (fun g => g.cluster) := by
        rcases List.mem_cons.mp hc with rfl | hc2
        · exact List.mem_cons_self _ _
        · exact List.mem_cons_of_mem _ (List.mem_map_of_mem _ hc2)
      exact hspec.2 c.cluster hmem
    · rcases List.mem_cons.mp hspec.1 with heq | hmem
      · exact ⟨c0, List.mem_cons_self c0 crest, heq⟩
      · obtain ⟨c, hc, hceq⟩ := List.mem_map.mp hmem
        exact ⟨c, List.mem_cons_of_mem c0 hc, hceq.symm⟩

/-- A concrete buffer holding two glyphs with clusters 5 and 3. -/
def replBuffer : hb_buffer_t :=
  ⟨hb_buffer_content_type_t.UNICODE, true, 10, 0xFFFD, sampleProps,
   [⟨65, 0, 5, 0, 0⟩, ⟨66, 0, 3, 0, 0⟩], [defaultPosition, defaultPosition],
   [], 0⟩

/-- Witness for replace_glyphs_min_cluster: a 2-to-1 substitution over
clusters 5 and 3 emits a glyph with cluster 3, the minimum. -/
theorem replace_glyphs_min_cluster_witness :
    (∀ c ∈ (replBuffer.info.drop replBuffer.idx).take 2,
        (⟨100, 0, 3, 0, 0⟩ : hb_glyph_info_t).cluster ≤ c.cluster) ∧
    (∃ c ∈ (replBuffer.info.drop replBuffer.idx).take 2,
        (⟨100, 0, 3, 0, 0⟩ : hb_glyph_info_t).cluster = c.cluster) :=
  replace_glyphs_min_cluster replBuffer 2 [100] rfl (by decide) (by decide)
    (by decide) ⟨100, 0, 3, 0, 0⟩ (by decide)

/-- Cluster coherence of the UNSAFE_TO_BREAK flag: any two glyphs of the list
with the same cluster value agree on the flag, so if one glyph of a cluster
carries it then every glyph of that cluster does. -/
def UnsafeCoherent (l : List hb_glyph_info_t) : Prop :=
  ∀ g1 ∈ l, ∀ g2 ∈ l, g1.cluster = g2.cluster →
    (hasUnsafeToBreak g1 = true ↔ hasUnsafeToBreak g2 = true)

theorem hasUnsafe_setUnsafe (g : hb_glyph_info_t) :
    hasUnsafeToBreak (setUnsafeToBreak g) = true := by
  simp [hasUnsafeToBreak, setUnsafeToBreak, HB_GLYPH_FLAG_UNSAFE_TO_BREAK,
    Nat.testBit_lor, Nat.testBit_zero]

theorem unsafeGlyph_cluster (cs : List Nat) (g : hb_glyph_info_t) :
    (if g.cluster ∈ cs then setUnsafeToBreak g else g).cluster = g.cluster := by
  split_ifs <;> rfl

theorem unsafeGlyph_flag (cs : List Nat) (g : hb_glyph_info_t) :
    hasUnsafeToBreak (if g.cluster ∈ cs then setUnsafeToBreak g else g) =
      (hasUnsafeToBreak g || decide (g.cluster ∈ cs)) := by
  split_ifs with h <;> simp [hasUnsafe_setUnsafe, h]

theorem mergeGlyph_cluster (cs : List Nat) (m : Nat) (crossing : Bool)
    (g : hb_glyph_info_t) :
    (mergeGlyph cs m crossing g).cluster =
      if g.cluster ∈ cs then m else g.cluster := by
  unfold mergeGlyph
  split_ifs <;> rfl

theorem mergeGlyph_flag (cs : List Nat) (m : Nat) (crossing : Bool)
    (g : hb_glyph_info_t) :
    hasUnsafeToBreak (mergeGlyph cs m crossing g) =
      (hasUnsafeToBreak g || (decide (g.cluster ∈ cs) && crossing)) := by
  unfold mergeGlyph
  split_ifs with h1 h2
  · simp [hasUnsafeToBreak, Nat.testBit_lor, Nat.testBit_zero,
      HB_GLYPH_FLAG_UNSAFE_TO_BREAK, h1, h2]
  · simp [hasUnsafeToBreak, h1, h2]
  · simp [hasUnsafeToBreak, h1]

theorem mergeClustersList_nil (l : List hb_glyph_info_t) (s e : Nat)
    (h : clustersInRange l s e = []) : mergeClustersList l s e = l := by
  simp [mergeClustersList, h]

theorem mergeClustersList_cons (l : List hb_glyph_info_t) (s e : Nat)
    (c : Nat) (cs0 : List Nat) (h : clustersInRange l s e = c :: cs0) :
    mergeClustersList l s e =
      l.map (mergeGlyph (c :: cs0) (natMinList (c :: cs0))
        ((c :: cs0).any (fun x => decide (x ≠ c)))) := by
  simp [mergeClustersList, h]

theorem crossing_true_of_distinct (c : Nat) (cs0 : List Nat)
    (h : ∃ c1 ∈ c :: cs0, ∃ c2 ∈ c :: cs0, c1 ≠ c2) :
    (c :: cs0).any (fun x => decide (x ≠ c)) = true := by
  obtain ⟨c1, h1, c2, h2, hne⟩ := h
  rw [List.any_eq_true]
  by_cases hc1 : c1 = c
  · subst hc1
    exact ⟨c2, h2, by simpa using fun hh => hne hh.symm⟩
  · exact ⟨c1, h1, by simpa using hc1⟩

theorem all_eq_of_not_crossing (c : Nat) (cs0 : List Nat)
    (h : ¬ (c :: cs0).any (fun x => decide (x ≠ c)) = true) :
    ∀ x ∈ c :: cs0, x = c := by
  intro x hx
  by_contra hne
  exact h (List.any_eq_true.mpr ⟨x, hx, by simpa using hne⟩)

theorem mem_flagged_of_hasUnsafe (l : List hb_glyph_info_t)
    (a : hb_glyph_info_t) (ha : a ∈ l) (h : hasUnsafeToBreak a = true) :
    a.cluster ∈ (l.filter hasUnsafeToBreak).map (fun g => g.cluster) :=
  List.mem_map_of_mem _ (List.mem_filter.mpr ⟨ha, h⟩)

theorem propagateUnsafe_coherent (l : List hb_glyph_info_t) :
    UnsafeCoherent (propagateUnsafeToBreak l) := by
  intro g1 hg1 g2 hg2 hcl
  simp only [propagateUnsafeToBreak] at hg1 hg2
  rw [List.mem_map] at hg1 hg2
  obtain ⟨a, ha, rfl⟩ := hg1
  obtain ⟨b2, hb2, rfl⟩ := hg2
  rw [unsafeGlyph_cluster, unsafeGlyph_cluster] at hcl
  rw [unsafeGlyph_flag, unsafeGlyph_flag, hcl]
  simp only [Bool.or_eq_true, decide_eq_true_eq]
  constructor
  · rintro (h | h)
    · right
      rw [← hcl]
      exact mem_flagged_of_hasUnsafe l a ha h
    · right
      exact h
  · rintro (h | h)
    · right
      exact mem_flagged_of_hasUnsafe l b2 hb2 h
    · right
      exact h

/-- C4: UNSAFE_TO_BREAK is cluster-coherent in every buffer state after
shaping — after every successful shape call (whose cleanup propagates the
flag through clusters), any two glyphs of the result with the same cluster
value agree on the flag, so if one carries it every glyph of that cluster
does; and a cluster merge that crosses a cluster boundary ORs the flag into
the entire merged cluster (every resulting glyph carrying the merged minimum
cluster value carries the flag). -/
theorem unsafe_to_break_cluster_coherent (h_advance : Nat → Int)
    (passes : List hb_buffer_op) (b : hb_buffer_t)
    (l : List hb_glyph_info_t) (s e : Nat) :
    ((hb_shape h_advance passes b).1 = true →
      UnsafeCoherent (hb_shape h_advance passes b).2.info) ∧
    ((∃ c1 ∈ clustersInRange l s e, ∃ c2 ∈ clustersInRange l s e, c1 ≠ c2) →
      ∀ g ∈ mergeClustersList l s e,
        g.cluster = natMinList (clustersInRange l s e) →
        hasUnsafeToBreak g = true) := by
  constructor
  · intro hsucc
    unfold hb_shape at hsucc ⊢
    split_ifs at hsucc ⊢ with h1 h2
    dsimp only
    exact propagateUnsafe_coherent _
  · intro hdist g hg hgm
    cases hcs : clustersInRange l s e with
    | nil =>
      rw [hcs] at hdist
      obtain ⟨c1, hc1, _⟩ := hdist
      exact absurd hc1 (List.not_mem_nil c1)
    | cons c cs0 =>
      rw [hcs] at hdist hgm
      have hcr := crossing_true_of_distinct c cs0 hdist
      rw [mergeClustersList_cons l s e c cs0 hcs] at hg
      rw [List.mem_map] at hg
      obtain ⟨a, ha, rfl⟩ := hg
      rw [mergeGlyph_flag, hcr]
      by_cases hma : a.cluster ∈ c :: cs0
      · simp [hma]
      · rw [mergeGlyph_cluster, if_neg hma] at hgm
        have hmem := (natMinList_spec c cs0).1
        rw [← hgm] at hmem
        exact absurd hmem hma

/-- A concrete pass list: three glyphs with clusters 5, 3, 3; unsafe_to_break
over the first glyph; a 2-to-1 substitution that carries the flagged mask
onto the min cluster; a copy of the last glyph; and the pass-end swap. -/
def c4Passes : List hb_buffer_op :=
  [hb_buffer_op.add 65 5, hb_buffer_op.add 66 3, hb_buffer_op.add 67 3,
   hb_buffer_op.unsafe_to_break 0 1, hb_buffer_op.replace_glyphs 2 [100],
   hb_buffer_op.next_glyph, hb_buffer_op.swap_buffers]

/-- Witness for unsafe_to_break_cluster_coherent: a concrete successful shape
run whose substitution puts the flag on only one glyph of cluster 3 mid-pass
still ends cluster-coherent after the cleanup propagation. -/
theorem unsafe_to_break_cluster_coherent_witness :
    (hb_shape (fun _ => 10) c4Passes freshBuffer).1 = true ∧
    UnsafeCoherent (hb_shape (fun _ => 10) c4Passes freshBuffer).2.info :=
  ⟨rfl, (unsafe_to_break_cluster_coherent (fun _ => 10) c4Passes freshBuffer
    [] 0 0).1 rfl⟩

theorem applyOp_pos_frame (op : hb_buffer_op) (b : hb_buffer_t)
    (p : List hb_glyph_position_t) :
    ∃ q, applyOp op { b with pos := p } = { applyOp op b with pos := q } := by
  cases op <;>
    simp only [applyOp, hb_buffer_add, hb_buffer_add_utf8, hb_buffer_ensure,
      hb_buffer_next_glyph, hb_buffer_replace_glyph, hb_buffer_replace_glyphs,
      hb_buffer_output_glyph, hb_buffer_merge_clusters,
      hb_buffer_unsafe_to_break, hb_buffer_swap_buffers, hb_buffer_reverse] <;>
    split_ifs <;>
    exact ⟨_, rfl⟩

theorem applyOps_pos_frame (ops : List hb_buffer_op) (b : hb_buffer_t)
    (p : List hb_glyph_position_t) :
    ∃ q, applyOps ops { b with pos := p } = { applyOps ops b with pos := q } := by
  induction ops generalizing b p with
  | nil => exact ⟨p, rfl⟩
  | cons op ops ih =>
    obtain ⟨q1, hq1⟩ := applyOp_pos_frame op b p
    obtain ⟨q2, hq2⟩ := ih (applyOp op b) q1
    refine ⟨q2, ?_⟩
    calc applyOps (op :: ops) { b with pos := p }
        = applyOps ops (applyOp op { b with pos := p }) := rfl
      _ = applyOps ops { applyOp op b with pos := q1 } := by rw [hq1]
      _ = { applyOps ops (applyOp op b) with pos := q2 } := hq2
      _ = { applyOps (op :: ops) b with pos := q2 } := rfl

/-- C6: determinism of the modelled shape run — the outcome is a pure
function of the face advances, the compiled passes and the buffer contents:
two runs on buffers identical except for the incoming stale position array
return the same success flag and identical glyph-info arrays, and on success
byte-identical position arrays. -/
theorem shape_deterministic (h_advance : Nat → Int)
    (passes : List hb_buffer_op) (b : hb_buffer_t)
    (p : List hb_glyph_position_t) :
    (hb_shape h_advance passes { b with pos := p }).1 =
      (hb_shape h_advance passes b).1 ∧
    (hb_shape h_advance passes { b with pos := p }).2.info =
      (hb_shape h_advance passes b).2.info ∧
    ((hb_shape h_advance passes b).1 = true →
      (hb_shape h_advance passes { b with pos := p }).2.pos =
        (hb_shape h_advance passes b).2.pos) := by
  obtain ⟨q, hq⟩ := applyOps_pos_frame passes b p
  simp only [hb_shape]
  rw [hq]
  split_ifs <;> simp

/-- Witness for shape_deterministic: a concrete successful run where the
input position array is replaced by stale garbage yields the same output
positions. -/
theorem shape_deterministic_witness :
    (hb_shape (fun _ => 10) [hb_buffer_op.add 65 0] freshBuffer).1 = true ∧
    (hb_shape (fun _ => 10) [hb_buffer_op.add 65 0]
        { freshBuffer with pos := [defaultPosition] }).2.pos =
      (hb_shape (fun _ => 10) [hb_buffer_op.add 65 0] freshBuffer).2.pos :=
  ⟨rfl, (shape_deterministic (fun _ => 10) [hb_buffer_op.add 65 0]
    freshBuffer [defaultPosition]).2.2 rfl⟩

theorem utf8Next_valid (rcp b0 : Nat) (rest : List Nat) :
    (utf8Next rcp b0 rest).1 = rcp ∨
    utf8IsValidScalar (utf8Next rcp b0 rest).1 = true := by
  rcases rest with _ | ⟨b1, _ | ⟨b2, _ | ⟨b3, rest⟩⟩⟩ <;>
    simp only [utf8Next, isUtf8Cont, utf8Valid3Lead, utf8Valid4Lead] <;>
    split_ifs <;>
    (try simp_all [utf8IsValidScalar, utf8Scalar2, utf8Scalar3, utf8Scalar4]) <;>
    omega

theorem utf8DecodeFuel_mem (rcp fuel : Nat) :
    ∀ (bs : List Nat), ∀ c ∈ utf8DecodeFuel rcp fuel bs,
      c = rcp ∨ utf8IsValidScalar c = true := by
  induction fuel with
  | zero =>
    intro bs c hc
    simp [utf8DecodeFuel] at hc
  | succ n ih =>
    intro bs c hc
    cases bs with
    | nil => simp [utf8DecodeFuel] at hc
    | cons b0 rest =>
      simp only [utf8DecodeFuel] at hc
      rw [List.mem_cons] at hc
      rcases hc with rfl | hc
      · exact utf8Next_valid rcp b0 rest
      · exact ih _ c hc

theorem utf8Decode_mem (rcp : Nat) (bytes : List Nat) :
    ∀ c ∈ utf8Decode rcp bytes, c = rcp ∨ utf8IsValidScalar c = true :=
  utf8DecodeFuel_mem rcp bytes.length bytes

theorem utf8Decode_ne_nil (rcp : Nat) (bytes : List Nat) (h : bytes ≠ []) :
    utf8Decode rcp bytes ≠ [] := by
  cases bytes with
  | nil => exact absurd rfl h
  | cons b0 rest => simp [utf8Decode, List.length_cons, utf8DecodeFuel]

/-- C9: ingesting any byte sequence through add_utf8 never fails and never
aborts — on a live buffer with capacity, allocation stays successful, one
glyph is appended per decoded scalar (at least one for nonempty input), and
every appended glyph codepoint is either a Unicode scalar decoded from a
well-formed sequence or the buffer replacement code point standing for an
ill-formed subsequence. -/
theorem add_utf8_replacement_total (b : hb_buffer_t) (text : List Nat)
    (hsucc : b.successful = true)
    (hcap : b.info.length + (utf8Decode b.replacement text).length ≤ b.max_len) :
    hb_buffer_allocation_successful (hb_buffer_add_utf8 b text) = true ∧
    (hb_buffer_add_utf8 b text).info.length =
      b.info.length + (utf8Decode b.replacement text).length ∧
    (text ≠ [] → utf8Decode b.replacement text ≠ []) ∧
    ∀ g ∈ (hb_buffer_add_utf8 b text).info,
      g ∈ b.info ∨ g.codepoint = b.replacement ∨
        utf8IsValidScalar g.codepoint = true := by
  unfold hb_buffer_add_utf8
  rw [if_neg (by simp [hsucc])]
  dsimp only
  rw [if_pos hcap]
  refine ⟨?_, ?_, ?_, ?_⟩
  · simp [hb_buffer_allocation_successful, hsucc]
  · simp [List.length_append, List.enum_length]
  · intro h
    exact utf8Decode_ne_nil b.replacement text h
  · intro g hg
    dsimp only at hg
    rw [List.mem_append] at hg
    rcases hg with hg | hg
    · exact Or.inl hg
    · right
      rw [List.mem_map] at hg
      obtain ⟨p, hp, rfl⟩ := hg
      have hsnd : p.2 ∈ utf8Decode b.replacement text := by
        have hm := List.mem_map_of_mem Prod.snd hp
        rwa [List.enum_map_snd] at hm
      rcases utf8Decode_mem b.replacement text p.2 hsnd with h | h
      · exact Or.inl (by simp [mkGlyphInfo, h])
      · exact Or.inr (by simp [mkGlyphInfo, h])

/-- Witness for add_utf8_replacement_total: ingesting a byte string with an
ill-formed byte 0xFF into a fresh buffer keeps allocation successful. -/
theorem add_utf8_replacement_total_witness :
    freshBuffer.successful = true ∧
    hb_buffer_allocation_successful
      (hb_buffer_add_utf8 freshBuffer [0x41, 0xFF, 0x42]) = true :=
  ⟨rfl, (add_utf8_replacement_total freshBuffer [0x41, 0xFF, 0x42] rfl
    (by decide)).1⟩
